import Mathlib

/-!
Verification development for the Befaco virtual-module DSP sources
(`SamplingModulator.cpp` and `Muxlicer.cpp`).

Conventions of the shallow embedding:
* C `float` values are modelled as `ℚ` with exact arithmetic; the float
  literals `0.1f`, `2.f`, `1e-6f`, `0.001f`, ... are embedded as the exact
  rationals `1/10`, `2`, `1/1000000`, `1/1000`, ....
* C `int` values are modelled as `ℤ` (no overflow occurs in the ranges the
  code exercises), C unsigned step counters as `ℕ`.
* Fallible lookups (the jansson `json_object_get`) return `Option`.
* The graphical widget layer of the sources is not modelled; only the
  per-sample DSP state machines and the persistence methods are.
-/

/-- Rack `math.hpp` `rescale(x, xMin, xMax, yMin, yMax)`:
`yMin + (x - xMin) / (xMax - xMin) * (yMax - yMin)`. -/
def rescale (x xMin xMax yMin yMax : ℚ) : ℚ :=
  yMin + (x - xMin) / (xMax - xMin) * (yMax - yMin)

/-- Rack `math.hpp` `clamp(x, a, b)` on floats: `max(min(x, b), a)`. -/
def clampQ (x a b : ℚ) : ℚ :=
  max (min x b) a

/-- Rack `math.hpp` `clamp(x, a, b)` on ints: `max(min(x, b), a)`. -/
def clampI (x a b : ℤ) : ℤ :=
  max (min x b) a

/-- C cast `(int)` of a floating value: truncation toward zero. -/
def ctrunc (q : ℚ) : ℤ :=
  if 0 ≤ q then ⌊q⌋ else ⌈q⌉

/-- C `roundf`: round half away from zero. -/
def croundf (q : ℚ) : ℤ :=
  if 0 ≤ q then ⌊q + 1/2⌋ else ⌈q - 1/2⌉

/-- Rack v1 `dsp::SchmittTrigger`: internal `state` starts `true`; `process(in)`
goes low when `in ≤ 0`, and returns `true` exactly on the call where `in ≥ 1`
after having been low.  Result: `(new state, triggered)`. -/
def schmittProcess (state : Bool) (v : ℚ) : Bool × Bool :=
  if state then
    (if v ≤ 0 then false else true, false)
  else
    if 1 ≤ v then (true, true) else (false, false)

/-- Rack v1 `dsp::BooleanTrigger`: internal `state` starts `true`;
`process(b)` returns `b && !state` and stores `b`.
Result: `(new state, triggered)`. -/
def booleanTriggerProcess (state : Bool) (b : Bool) : Bool × Bool :=
  (b, b && !state)

/-- `MultiGateClock` (Muxlicer.cpp): countdown gate whose subdivision can be
queried at any time. -/
structure MultiGateClock where
  remaining : ℚ
  fullPulseLength : ℚ
deriving DecidableEq

/-- `MultiGateClock::reset(newfullPulseLength)`. -/
def MultiGateClock.reset (_c : MultiGateClock) (newfullPulseLength : ℚ) : MultiGateClock :=
  { fullPulseLength := newfullPulseLength, remaining := newfullPulseLength }

/-- `MultiGateClock::process(deltaTime)`: advances the countdown, reports
whether the pulse is still in the HIGH state. -/
def MultiGateClock.processClock (c : MultiGateClock) (deltaTime : ℚ) : MultiGateClock × Bool :=
  if 0 < c.remaining then
    ({ c with remaining := c.remaining - deltaTime }, true)
  else
    (c, false)

/-- `MultiGateClock::getGate(gateMode)` (Muxlicer.cpp lines 79-94):
`gateMode == 0` is the always-on special case returning `10.f`; a negative
`gateMode` (or an elapsed pulse) returns `0.f`; otherwise the remaining time
selects the odd/even sub-interval of the subdivided gate. -/
def MultiGateClock.getGate (c : MultiGateClock) (gateMode : ℤ) : ℚ :=
  if gateMode = 0 then
    10
  else if gateMode < 0 ∨ c.remaining ≤ 0 then
    0
  else
    let multiGateOnLength : ℚ := c.fullPulseLength / (if 0 < gateMode then 2 * (gateMode : ℚ) else 1)
    let isOddPulse : Bool := (ctrunc (c.remaining / multiGateOnLength)).tmod 2 != 0
    if isOddPulse then 10 else 0

/-- `MultDivClock` (Muxlicer.cpp lines 101-177): clock multiplier/divider
state.  `multDiv` is the signed ratio (negative = division, positive =
multiplication, 0 documented as "no modification to the clock"). -/
structure MultDivClock where
  multDiv : ℤ
  secondsSinceLastClock : ℚ
  inputClockLengthSeconds : ℚ
  dividerCount : ℤ
  dividedProgressSeconds : ℚ
deriving DecidableEq

/-- Initial field values of `MultDivClock`. -/
def MultDivClock.init : MultDivClock :=
  { multDiv := 1
    secondsSinceLastClock := -1
    inputClockLengthSeconds := -1
    dividerCount := 0
    dividedProgressSeconds := 0 }

/-- The divided clock length `inputClockLengthSeconds * division` computed in
`MultDivClock::process` / `getEffectiveClockLength`, with
`division = std::max(-multDiv, 1)`. -/
def MultDivClock.dividedSeconds (multDiv : ℤ) (inputClockLengthSeconds : ℚ) : ℚ :=
  inputClockLengthSeconds * ((max (-multDiv) 1 : ℤ) : ℚ)

/-- The multiplied clock length `dividedSeconds / multiplication` with
`multiplication = std::max(multDiv, 1)`. -/
def MultDivClock.multipliedSeconds (multDiv : ℤ) (inputClockLengthSeconds : ℚ) : ℚ :=
  MultDivClock.dividedSeconds multDiv inputClockLengthSeconds / ((max multDiv 1 : ℤ) : ℚ)

/-- The output gate length `std::max(0.001f, multipliedSeconds * 0.5f)` of
`MultDivClock::process`. -/
def MultDivClock.gateSeconds (multDiv : ℤ) (inputClockLengthSeconds : ℚ) : ℚ :=
  max (1/1000) (MultDivClock.multipliedSeconds multDiv inputClockLengthSeconds * (1/2))

/-- The output level computed at the end of `MultDivClock::process`
(lines 149-161) as a function of the ratio, the measured input clock length
and the progress `dividedProgressSeconds` within the divided cycle:
inside the divided cycle, the fractional position within the current
multiplied sub-period is compared against the gate length. -/
def MultDivClock.outLevel (multDiv : ℤ) (inputClockLengthSeconds dividedProgressSeconds : ℚ) : ℚ :=
  let dividedSeconds := MultDivClock.dividedSeconds multDiv inputClockLengthSeconds
  let multipliedSeconds := MultDivClock.multipliedSeconds multDiv inputClockLengthSeconds
  let gateSeconds := MultDivClock.gateSeconds multDiv inputClockLengthSeconds
  if dividedProgressSeconds < dividedSeconds then
    let m0 := dividedProgressSeconds / multipliedSeconds
    let m1 := m0 - ((ctrunc m0 : ℤ) : ℚ)
    let m2 := m1 * multipliedSeconds
    if m2 ≤ gateSeconds then 1 else 0
  else
    0

/-- `MultDivClock::process(deltaTime, clockPulseReceived)` (lines 115-164).
Returns the updated state and the gated clock signal (0 or 1). -/
def MultDivClock.process (c : MultDivClock) (deltaTime : ℚ) (clockPulseReceived : Bool) :
    MultDivClock × ℚ :=
  -- update our record of the incoming clock spacing
  let inputClockLengthSeconds :=
    if clockPulseReceived ∧ 0 < c.secondsSinceLastClock then c.secondsSinceLastClock
    else c.inputClockLengthSeconds
  let secondsSinceLastClock :=
    if clockPulseReceived then 0 else c.secondsSinceLastClock
  if 0 ≤ secondsSinceLastClock then
    let secondsSinceLastClock := secondsSinceLastClock + deltaTime
    let division : ℤ := max (-c.multDiv) 1
    let (dividedProgressSeconds, dividerCount) :=
      if clockPulseReceived then
        let dp := if c.dividerCount < 1 then 0 else c.dividedProgressSeconds + deltaTime
        let dc := c.dividerCount + 1
        (dp, if division ≤ dc then 0 else dc)
      else
        (c.dividedProgressSeconds + deltaTime, c.dividerCount)
    let out := MultDivClock.outLevel c.multDiv inputClockLengthSeconds dividedProgressSeconds
    ({ multDiv := c.multDiv
       secondsSinceLastClock := secondsSinceLastClock
       inputClockLengthSeconds := inputClockLengthSeconds
       dividerCount := dividerCount
       dividedProgressSeconds := dividedProgressSeconds }, out)
  else
    ({ c with
       inputClockLengthSeconds := inputClockLengthSeconds
       secondsSinceLastClock := secondsSinceLastClock }, 0)

/-- `MultDivClock::getEffectiveClockLength()` (lines 166-176). -/
def MultDivClock.getEffectiveClockLength (c : MultDivClock) : ℚ :=
  MultDivClock.multipliedSeconds c.multDiv c.inputClockLengthSeconds

/-- `SamplingModulator::StepState` (SamplingModulator.cpp lines 33-37). -/
inductive StepState where
  | STATE_RESET
  | STATE_OFF
  | STATE_ON
deriving DecidableEq

open StepState

/-- The `numEffectiveSteps` loop body of `SamplingModulator::process`
(lines 131-137): scan for the first `STATE_RESET`, carrying the index. -/
def numEffectiveStepsAux : List StepState → ℕ → ℕ
  | [], _ => 8
  | s :: rest, i => if s = STATE_RESET then i else numEffectiveStepsAux rest (i + 1)

/-- `numEffectiveSteps` as computed by `SamplingModulator::process`
(lines 130-137): 8 unless a `STATE_RESET` entry truncates the scan. -/
def computeNumEffectiveSteps (steps : List StepState) : ℕ :=
  numEffectiveStepsAux steps 0

/-- Modelled from the spec: "the first RESET entry (scanning from index 0)
truncates the effective sequence length"; the effective step count is the
index of the first `STATE_RESET`, or 8 when there is none.  Used only to be
compared against `computeNumEffectiveSteps`, which is the source's loop. -/
def numEffectiveStepsSpec (steps : List StepState) : ℕ :=
  match steps.findIdx? (· = STATE_RESET) with
  | some i => i
  | none => 8

/-- The step advance `currentStep = (currentStep + 1) % std::max(1, numEffectiveSteps)`
of `SamplingModulator::process` (line 170). -/
def advanceStepIndex (currentStep numEffectiveSteps : ℕ) : ℕ :=
  (currentStep + 1) % max 1 numEffectiveSteps

/-- The persistent per-sample state of `SamplingModulator` that feeds back into
the sequencing logic.  The three `MinBlepGenerator` instances and the
`PulseGenerator` only shape the output voltages and never feed back into this
state, so they are not tracked here; likewise the output-voltage computation
(lines 184-207) reads but does not change this state. -/
structure SampModState where
  numEffectiveSteps : ℕ
  currentStep : ℕ
  stepStates : Fin 8 → StepState
  stepPhase : ℚ
  halfPhase : Bool
  heldValue : ℚ
  holdDetectorState : Bool
  clockState : Bool

/-- The per-call inputs of `SamplingModulator::process`.  `intExtParam` is the
`INT_EXT_PARAM` value (`CLOCK_EXTERNAL = 0`, `CLOCK_INTERNAL = 1`);
`stepParams` are the eight `STEP_PARAM` switch values already cast to
`StepState`; `frequency` stands for `minDialFrequency * 2^pitch` of lines
139-141 (the exponential `2^pitch` is not rational, so the per-call frequency
is taken as an arbitrary rational input; it reaches the state only through
`deltaPhase`). -/
structure SampModInputs where
  intExtParam : ℚ
  stepParams : Fin 8 → StepState
  syncVoltage : ℚ
  holdVoltage : ℚ
  inVoltage : ℚ
  sampleTime : ℚ
  frequency : ℚ

/-- `SamplingModulator::process` (SamplingModulator.cpp lines 104-212),
restricted to its persistent sequencing state (see `SampModState`). -/
def SampModState.process (s : SampModState) (inp : SampModInputs) : SampModState :=
  -- clock / sync handling (lines 107-118)
  let clockR := schmittProcess s.clockState (rescale inp.syncVoltage (1/10) 2 0 1)
  let clockState := clockR.1
  let clockTrig := clockR.2
  let advanceStep0 := clockTrig
  let stepPhase0 := if inp.intExtParam = 0 then s.stepPhase else if clockTrig then 0 else s.stepPhase
  let halfPhase0 := if inp.intExtParam = 0 then s.halfPhase else if clockTrig then false else s.halfPhase
  -- hold detector (lines 120-124)
  let holdR := schmittProcess s.holdDetectorState (rescale inp.holdVoltage (1/10) 2 0 1)
  let holdDetectorState := holdR.1
  let heldValue0 := if holdR.2 then inp.inVoltage else s.heldValue
  -- copy the step switches and count the effective steps (lines 126-137)
  let stepStates := inp.stepParams
  let numEffectiveSteps := computeNumEffectiveSteps (List.ofFn stepStates)
  -- phase advance (lines 143-145)
  let deltaPhase := clampQ (inp.sampleTime * inp.frequency) (1/1000000) (1/2)
  let stepPhase1 := stepPhase0 + deltaPhase
  -- half-phase crossing (lines 147-155); the discontinuity insertions read
  -- stepStates[currentStep] but do not change the state
  let halfPhase1 := if ¬halfPhase0 ∧ 1/2 ≤ stepPhase1 then true else halfPhase0
  -- full-phase wrap (lines 157-167)
  let wrapped := 1 ≤ stepPhase1
  let stepPhase2 := if wrapped then stepPhase1 - 1 else stepPhase1
  let halfPhase2 := if wrapped then false else halfPhase1
  let advanceStep := if wrapped ∧ inp.intExtParam = 1 then true else advanceStep0
  -- step advance (lines 169-182): on advance, move to the next index modulo
  -- max(1, numEffectiveSteps); if the new step is ON and the hold gate is not
  -- high, sample a new held value
  let currentStep1 :=
    if advanceStep then advanceStepIndex s.currentStep numEffectiveSteps else s.currentStep
  let heldValue1 :=
    if advanceStep ∧ stepStates ⟨currentStep1 % 8, Nat.mod_lt _ (by norm_num)⟩ = STATE_ON
        ∧ ¬holdDetectorState
    then inp.inVoltage else heldValue0
  { numEffectiveSteps := numEffectiveSteps, currentStep := currentStep1,
    stepStates := stepStates, stepPhase := stepPhase2, halfPhase := halfPhase2,
    heldValue := heldValue1, holdDetectorState := holdDetectorState,
    clockState := clockState }

/-- The constructor-time state of `SamplingModulator`: `currentStep = 0`,
`stepPhase = 0`, `halfPhase = false`, `heldValue = 0`, both Schmitt triggers
high (Rack initialises them high), and the step switches at their default
`STATE_ON`. -/
def sampModInit : SampModState :=
  { numEffectiveSteps := 8, currentStep := 0, stepStates := fun _ => STATE_ON,
    stepPhase := 0, halfPhase := false, heldValue := 0,
    holdDetectorState := true, clockState := true }

/-- Run `SamplingModulator::process` over a list of per-call inputs. -/
def SampModState.run (s : SampModState) (inps : List SampModInputs) : SampModState :=
  inps.foldl SampModState.process s

/-- `Muxlicer::PlayState` value `STATE_PLAY_ONCE` (Muxlicer.cpp line 219). -/
def STATE_PLAY_ONCE : ℤ := 0

/-- `Muxlicer::PlayState` value `STATE_STOPPED` (Muxlicer.cpp line 220). -/
def STATE_STOPPED : ℤ := 1

/-- `Muxlicer::PlayState` value `STATE_PLAY` (Muxlicer.cpp line 221). -/
def STATE_PLAY : ℤ := 2

/-- `Muxlicer::ModeCOMIO` value `COM_1_IN_8_OUT` (line 214). -/
def COM_1_IN_8_OUT : ℤ := 0

/-- `Muxlicer::ModeCOMIO` value `COM_8_IN_1_OUT` (line 215). -/
def COM_8_IN_1_OUT : ℤ := 1

/-- The part of the `Muxlicer` per-sample state driven by the play/reset
switch and the sequence advance: `playState`, `runIndex`, the pending `reset`
flag, and the internal state of `playStateTrigger` (a `dsp::BooleanTrigger`,
whose stored previous input starts `true`). -/
structure MuxState where
  playState : ℤ
  runIndex : ℕ
  reset : Bool
  playStateTrigger : Bool
deriving DecidableEq

/-- `Muxlicer::processPlayResetSwitch()` (Muxlicer.cpp lines 443-476), as a
function of the state and the momentary `PLAY_PARAM` value (`0` = bottom
"once/reset" region, `1` = rest, `2` = top "play/stop" region). -/
def Muxlicer.processPlayResetSwitch (s : MuxState) (playParam : ℚ) : MuxState :=
  let switchIsActive : Bool := playParam ≠ STATE_STOPPED
  let trig := booleanTriggerProcess s.playStateTrigger switchIsActive
  let s := { s with playStateTrigger := trig.1 }
  if trig.2 ∧ switchIsActive then
    if s.playState = STATE_STOPPED then
      if playParam = STATE_PLAY then
        { s with playState := STATE_PLAY }
      else if playParam = STATE_PLAY_ONCE then
        { s with playState := STATE_PLAY_ONCE, runIndex := 0, reset := true }
      else s
    else
      if playParam = STATE_PLAY then
        { s with playState := STATE_STOPPED }
      else if playParam = STATE_PLAY_ONCE then
        { s with reset := true, runIndex := 0 }
      else s
  else s

/-- The sequence-advance block of `Muxlicer::process` (lines 357-369),
executed when `dividedMultedClockPulseReceived && isSequenceAdvancing`
(a qualifying divided/multiplied clock edge): increment `runIndex`; on
wrapping past 8, reset it to 0, fire the end-of-cycle pulse, and stop if in
one-shot mode.  Returns the new state and whether `endOfCyclePulse.trigger`
fired. -/
def Muxlicer.clockEdgeAdvance (s : MuxState) : MuxState × Bool :=
  let r := s.runIndex + 1
  if 8 ≤ r then
    ({ s with
       runIndex := 0
       playState := if s.playState = STATE_PLAY_ONCE then STATE_STOPPED else s.playState }, true)
  else
    ({ s with runIndex := r }, false)

/-- Iterate `Muxlicer.clockEdgeAdvance` over `n` qualifying clock edges,
counting how many end-of-cycle pulses fire. -/
def Muxlicer.iterateAdvance : ℕ → MuxState → MuxState × ℕ
  | 0, s => (s, 0)
  | n + 1, s =>
    let step := Muxlicer.clockEdgeAdvance s
    let rest := Muxlicer.iterateAdvance n step.1
    (rest.1, rest.2 + (if step.2 then 1 else 0))

/-- The tap/external-clock timing block of `Muxlicer::process` (lines
319-328): on a clock pulse, adopt `tapTime` as the internal clock length only
when `tapTime < 2.f`, and reset both the tap timer and the internal clock
progress; then both timers advance by `sampleTime`.  Returns
`(tapTime, internalClockLength, internalClockProgress)`. -/
def Muxlicer.tapClockTick (tapTime internalClockLength internalClockProgress sampleTime : ℚ)
    (externalClockPulseReceived : Bool) : ℚ × ℚ × ℚ :=
  let internalClockLength :=
    if externalClockPulseReceived ∧ tapTime < 2 then tapTime else internalClockLength
  let tapTime' := if externalClockPulseReceived then 0 else tapTime
  let internalClockProgress' := if externalClockPulseReceived then 0 else internalClockProgress
  (tapTime' + sampleTime, internalClockLength, internalClockProgress' + sampleTime)

/-- `Muxlicer::possibleQuadraticGates` (Muxlicer.cpp line 239). -/
def possibleQuadraticGates : List ℤ := [-1, 1, 2, 4, 8]

/-- The raw `gate` value of `Muxlicer::getGateMode()` (lines 480-490): with
the CV input connected, the clamped CV attenuated by the knob and rescaled to
`[-1, 8]`; otherwise the knob value itself. -/
def Muxlicer.gateModeValue (gateModeConnected : Bool) (gateModeVoltage gateModeParam : ℚ) : ℚ :=
  if gateModeConnected then
    let gateCV := clampQ gateModeVoltage 0 5 / 5
    let knobAttenuation := rescale gateModeParam (-1) 8 0 1
    rescale (gateCV * knobAttenuation) 0 1 (-1) 8
  else
    gateModeParam

/-- The `quadraticGateIndex` of `Muxlicer::getGateMode()` (line 493):
`int(floor(rescale(gate, -1.f, 8.f, 0.f, 4.99f)))`. -/
def Muxlicer.quadraticGateIndex (gate : ℚ) : ℤ :=
  ⌊rescale gate (-1) 8 0 (499/100)⌋

/-- `Muxlicer::getGateMode()` (Muxlicer.cpp lines 478-499).  The
`possibleQuadraticGates` array read is modelled with `List.getD` (default 0,
a value not in the table, standing for the out-of-range read). -/
def Muxlicer.getGateMode (gateModeConnected : Bool) (gateModeVoltage gateModeParam : ℚ)
    (quadraticGatesOnly : Bool) : ℤ :=
  let gate := Muxlicer.gateModeValue gateModeConnected gateModeVoltage gateModeParam
  if quadraticGatesOnly then
    possibleQuadraticGates.getD (Muxlicer.quadraticGateIndex gate).toNat 0
  else
    clampI (croundf gate) (-1) 8

/-- The jansson JSON values the Muxlicer persistence uses. -/
inductive Json where
  | JInt : ℤ → Json
  | JBool : Bool → Json
deriving DecidableEq

/-- A jansson object: a flat key/value document.  `json_object_get` returns
NULL (`none`) for a missing key. -/
def json_object_get (rootJ : List (String × Json)) (key : String) : Option Json :=
  rootJ.lookup key

/-- jansson `json_integer_value`: 0 when the value is NULL or not an
integer. -/
def json_integer_value : Option Json → ℤ
  | some (Json.JInt n) => n
  | _ => 0

/-- jansson `json_boolean_value`: true only when the value is `json_true`;
NULL or any other value gives false. -/
def json_boolean_value : Option Json → Bool
  | some (Json.JBool b) => b
  | _ => false

/-- The six persisted `Muxlicer` settings (Muxlicer.cpp lines 239-267 and
501-531): the enums `ModeCOMIO` and `PlayState` are kept as their integer
values. -/
structure MuxSettings where
  modeCOMIO : ℤ
  quadraticGatesOnly : Bool
  allInNormalVoltage : ℤ
  mainClockMultDiv : ℤ
  outputClockMultDiv : ℤ
  playState : ℤ
deriving DecidableEq

/-- The constructor-time defaults of the six persisted settings
(lines 240, 242, 266, 267 and `MultDivClock.multDiv = 1`). -/
def muxSettingsDefault : MuxSettings :=
  { modeCOMIO := COM_1_IN_8_OUT, quadraticGatesOnly := false,
    allInNormalVoltage := 10, mainClockMultDiv := 1, outputClockMultDiv := 1,
    playState := STATE_STOPPED }

/-- `Muxlicer::dataToJson()` (Muxlicer.cpp lines 501-511). -/
def Muxlicer.dataToJson (m : MuxSettings) : List (String × Json) :=
  [ ("modeCOMIO", Json.JInt ( MuxSettings.modeCOMIO m)),
    ("quadraticGatesOnly", Json.JBool m.quadraticGatesOnly),
    ("allInNormalVoltage", Json.JInt m.allInNormalVoltage),
    ("mainClockMultDiv", Json.JInt m.mainClockMultDiv),
    ("outputClockMultDiv", Json.JInt m.outputClockMultDiv),
    ("playState", Json.JInt m.playState) ]

/-- `Muxlicer::dataFromJson(rootJ)` (Muxlicer.cpp lines 513-531): every field
is overwritten unconditionally from the document; a missing key passes NULL
to the jansson accessor. -/
def Muxlicer.dataFromJson (_m : MuxSettings) (rootJ : List (String × Json)) : MuxSettings :=
  { modeCOMIO := json_integer_value (json_object_get rootJ "modeCOMIO"),
    quadraticGatesOnly := json_boolean_value (json_object_get rootJ "quadraticGatesOnly"),
    allInNormalVoltage := json_integer_value (json_object_get rootJ "allInNormalVoltage"),
    mainClockMultDiv := json_integer_value (json_object_get rootJ "mainClockMultDiv"),
    outputClockMultDiv := json_integer_value (json_object_get rootJ "outputClockMultDiv"),
    playState := json_integer_value (json_object_get rootJ "playState") }

/-- Claim C7: for every internal timing state of `MultiGateClock` (any
remaining time and any full pulse length), `getGate(0)` returns the full high
level 10 regardless of remaining time, and `getGate(m)` returns 0 for every
`m < 0` regardless of timing. -/
theorem multiGateClock_getGate_boundary (c : MultiGateClock) (m : ℤ) :
    MultiGateClock.getGate c 0 = 10 ∧ (m < 0 → MultiGateClock.getGate c m = 0) := by
  constructor
  · simp [MultiGateClock.getGate]
  · intro h
    have h0 : m ≠ 0 := by omega
    simp [MultiGateClock.getGate, h0, h]

/-- Witness for `multiGateClock_getGate_boundary` at a concrete timing state
and gate mode. -/
theorem multiGateClock_getGate_boundary_witness :
    MultiGateClock.getGate ⟨5, 7⟩ 0 = 10 ∧ MultiGateClock.getGate ⟨5, 7⟩ (-3) = 0 :=
  ⟨(multiGateClock_getGate_boundary ⟨5, 7⟩ (-3)).1,
   (multiGateClock_getGate_boundary ⟨5, 7⟩ (-3)).2 (by norm_num)⟩

/-- Claim C10: in `Muxlicer::process`, a tap or external clock pulse updates
the internal free-running clock length only when the elapsed time since the
previous pulse is strictly less than 2 seconds; a pulse arriving after an
interval of 2 seconds or more leaves `internalClockLength` unchanged while
still resetting the tap timer and the internal clock phase (both then advance
by the current sample time). -/
theorem muxlicer_tapClock_two_second_window (t len prog dt : ℚ) :
    (2 ≤ t → Muxlicer.tapClockTick t len prog dt true = (dt, len, dt)) ∧
    (t < 2 → Muxlicer.tapClockTick t len prog dt true = (dt, t, dt)) := by
  refine ⟨fun h => ?_, fun h => ?_⟩
  · simp [Muxlicer.tapClockTick, h.not_lt]
  · simp [Muxlicer.tapClockTick, h]

/-- Witness for `muxlicer_tapClock_two_second_window`: a pulse after 3 s keeps
the clock length 5, a pulse after 1 s adopts 1 as the new length. -/
theorem muxlicer_tapClock_two_second_window_witness :
    Muxlicer.tapClockTick 3 5 7 (1/10) true = (1/10, 5, 1/10) ∧
    Muxlicer.tapClockTick 1 5 7 (1/10) true = (1/10, 1, 1/10) :=
  ⟨(muxlicer_tapClock_two_second_window 3 5 7 (1/10)).1 (by norm_num),
   (muxlicer_tapClock_two_second_window 1 5 7 (1/10)).2 (by norm_num)⟩

/-- Claim C4: in the Muxlicer play state machine, from `STATE_STOPPED`,
activating the "once" region of the play control (`PLAY_PARAM = 0` with the
debounce trigger previously released) sets `playState` to `STATE_PLAY_ONCE`
and resets the run index to 0; subsequently completing 8 qualifying
divided-clock edges while in `STATE_PLAY_ONCE` returns `playState` to
`STATE_STOPPED` and fires the end-of-cycle pulse exactly once (after any
fewer edges the state is still `STATE_PLAY_ONCE`, the run index equals the
number of edges, and no end-of-cycle pulse has fired). -/
theorem muxlicer_play_once_cycle :
    (∀ (r : ℕ) (rst : Bool),
      Muxlicer.processPlayResetSwitch ⟨STATE_STOPPED, r, rst, false⟩ ((STATE_PLAY_ONCE : ℤ) : ℚ)
        = ⟨STATE_PLAY_ONCE, 0, true, true⟩) ∧
    (∀ (rst trig : Bool),
      Muxlicer.iterateAdvance 8 ⟨STATE_PLAY_ONCE, 0, rst, trig⟩
        = (⟨STATE_STOPPED, 0, rst, trig⟩, 1)) ∧
    (∀ (rst trig : Bool) (j : Fin 8),
      Muxlicer.iterateAdvance (j : ℕ) ⟨STATE_PLAY_ONCE, 0, rst, trig⟩
        = (⟨STATE_PLAY_ONCE, (j : ℕ), rst, trig⟩, 0)) := by
  refine ⟨fun r rst => ?_, by decide, by decide⟩
  simp [Muxlicer.processPlayResetSwitch, booleanTriggerProcess,
    STATE_STOPPED, STATE_PLAY_ONCE, STATE_PLAY]

/-- Claim C8: applying `dataFromJson` to the document produced by
`dataToJson` restores exactly the six persisted fields, from any prior
settings value: the save/reload round trip is the identity on the persisted
configuration. -/
theorem muxlicer_dataJson_roundtrip (m m0 : MuxSettings) :
    Muxlicer.dataFromJson m0 (Muxlicer.dataToJson m) = m := by
  cases m
  rfl

/-- Counterexample to claim C1: loading an empty settings document (all six
keys missing) does not leave the defaults: `playState` becomes
`STATE_PLAY_ONCE` instead of the default `STATE_STOPPED`, and
`allInNormalVoltage` becomes 0 instead of the default 10. -/
theorem muxlicer_dataFromJson_missing_keys_not_defaults :
    MuxSettings.playState (Muxlicer.dataFromJson muxSettingsDefault []) = STATE_PLAY_ONCE ∧
    MuxSettings.playState muxSettingsDefault = STATE_STOPPED ∧
    STATE_PLAY_ONCE ≠ STATE_STOPPED ∧
    MuxSettings.allInNormalVoltage (Muxlicer.dataFromJson muxSettingsDefault []) = 0 ∧
    MuxSettings.allInNormalVoltage muxSettingsDefault = 10 := by
  refine ⟨rfl, rfl, by decide, rfl, rfl⟩

/-- Amended claim C1: `dataFromJson` is total (never crashes) and a missing
key sets the field to the zero value of the jansson accessor rather than
leaving the constructor default: `modeCOMIO` becomes `COM_1_IN_8_OUT` and
`quadraticGatesOnly` becomes `false` (which happen to equal the defaults),
while `allInNormalVoltage` becomes 0 (default 10), both clock ratios become 0
(default 1), and `playState` becomes `STATE_PLAY_ONCE` (default
`STATE_STOPPED`). -/
theorem muxlicer_dataFromJson_missing_key_zero (m : MuxSettings)
    (rootJ : List (String × Json)) :
    (json_object_get rootJ "modeCOMIO" = none →
      MuxSettings.modeCOMIO (Muxlicer.dataFromJson m rootJ) = COM_1_IN_8_OUT) ∧
    (json_object_get rootJ "quadraticGatesOnly" = none →
      MuxSettings.quadraticGatesOnly (Muxlicer.dataFromJson m rootJ) = false) ∧
    (json_object_get rootJ "allInNormalVoltage" = none →
      MuxSettings.allInNormalVoltage (Muxlicer.dataFromJson m rootJ) = 0) ∧
    (json_object_get rootJ "mainClockMultDiv" = none →
      MuxSettings.mainClockMultDiv (Muxlicer.dataFromJson m rootJ) = 0) ∧
    (json_object_get rootJ "outputClockMultDiv" = none →
      MuxSettings.outputClockMultDiv (Muxlicer.dataFromJson m rootJ) = 0) ∧
    (json_object_get rootJ "playState" = none →
      MuxSettings.playState (Muxlicer.dataFromJson m rootJ) = STATE_PLAY_ONCE) := by
  refine ⟨fun h => ?_, fun h => ?_, fun h => ?_, fun h => ?_, fun h => ?_, fun h => ?_⟩ <;>
    simp [Muxlicer.dataFromJson, h, json_integer_value, json_boolean_value,
      COM_1_IN_8_OUT, STATE_PLAY_ONCE]

/-- Witness for `muxlicer_dataFromJson_missing_key_zero` on the empty
document, where every key lookup is `none`. -/
theorem muxlicer_dataFromJson_missing_key_zero_witness :
    MuxSettings.modeCOMIO (Muxlicer.dataFromJson muxSettingsDefault []) = COM_1_IN_8_OUT ∧
    MuxSettings.mainClockMultDiv (Muxlicer.dataFromJson muxSettingsDefault []) = 0 :=
  ⟨(muxlicer_dataFromJson_missing_key_zero muxSettingsDefault []).1 rfl,
   (muxlicer_dataFromJson_missing_key_zero muxSettingsDefault []).2.2.2.1 rfl⟩

/-- The source scan `numEffectiveStepsAux` computes the index of the first
`STATE_RESET` relative to the carried start index (8 when there is none). -/
theorem numEffectiveStepsAux_eq_findIdx (steps : List StepState) (i : ℕ) :
    numEffectiveStepsAux steps i =
      match List.findIdx? (· = STATE_RESET) steps i with
      | some j => j
      | none => 8 := by
  induction steps generalizing i with
  | nil => simp [numEffectiveStepsAux, List.findIdx?_nil]
  | cons s rest ih =>
    by_cases h : s = STATE_RESET
    · simp [numEffectiveStepsAux, h, List.findIdx?_cons]
    · simp only [numEffectiveStepsAux, h, if_false, List.findIdx?_cons, decide_eq_true_eq]
      rw [ih]

/-- Claim C3: for every configuration of the step switches, the effective
step count computed by `SamplingModulator::process` equals the index of the
first `STATE_RESET` entry scanning from index 0 (8 when there is none); in
particular for `[ON, ON, RESET, ON, ON, ON, ON, ON]` the effective step count
is 2, and each step advance from any current index lands strictly inside
`[0, 2)`. -/
theorem samplingModulator_reset_truncation :
    (∀ steps : List StepState, computeNumEffectiveSteps steps = numEffectiveStepsSpec steps) ∧
    computeNumEffectiveSteps
      [STATE_ON, STATE_ON, STATE_RESET, STATE_ON, STATE_ON, STATE_ON, STATE_ON, STATE_ON] = 2 ∧
    (∀ c : ℕ, advanceStepIndex c
      (computeNumEffectiveSteps
        [STATE_ON, STATE_ON, STATE_RESET, STATE_ON, STATE_ON, STATE_ON, STATE_ON, STATE_ON]) < 2) := by
  refine ⟨fun steps => ?_, by decide, fun c => ?_⟩
  · rw [computeNumEffectiveSteps, numEffectiveStepsSpec, numEffectiveStepsAux_eq_findIdx]
  · have h2 : computeNumEffectiveSteps
      [STATE_ON, STATE_ON, STATE_RESET, STATE_ON, STATE_ON, STATE_ON, STATE_ON, STATE_ON] = 2 := by
      decide
    rw [h2]
    show (c + 1) % max 1 2 < 2
    have hm : max 1 2 = 2 := rfl
    rw [hm]
    omega

/-- Claim C6: `MultDivClock` with `multDiv = 0` behaves identically to
`multDiv = 1`: `process` produces the same output and the same state (apart
from the stored ratio itself), and `getEffectiveClockLength` agrees, for
every state and input; the ratio 0 is treated as 1 for both the division and
the multiplication factor. -/
theorem multDivClock_zero_ratio_identity (ssc icl dps : ℚ) (dc : ℤ) (dt : ℚ) (pulse : Bool) :
    MultDivClock.process ⟨0, ssc, icl, dc, dps⟩ dt pulse
      = (let r := MultDivClock.process ⟨1, ssc, icl, dc, dps⟩ dt pulse
         (⟨0, r.1.secondsSinceLastClock, r.1.inputClockLengthSeconds, r.1.dividerCount,
           r.1.dividedProgressSeconds⟩, r.2)) ∧
    MultDivClock.getEffectiveClockLength ⟨0, ssc, icl, dc, dps⟩
      = MultDivClock.getEffectiveClockLength ⟨1, ssc, icl, dc, dps⟩ := by
  have hmax0 : max (-(0:ℤ)) 1 = 1 := rfl
  have hmax1 : max (-(1:ℤ)) 1 = 1 := rfl
  have hm0 : max (0:ℤ) 1 = 1 := rfl
  have hm1 : max (1:ℤ) 1 = 1 := rfl
  constructor
  · simp only [MultDivClock.process, MultDivClock.outLevel, MultDivClock.dividedSeconds,
      MultDivClock.multipliedSeconds, MultDivClock.gateSeconds, hmax0, hmax1, hm0, hm1]
    split_ifs <;> rfl
  · simp only [MultDivClock.getEffectiveClockLength, MultDivClock.multipliedSeconds,
      MultDivClock.dividedSeconds, hmax0, hmax1, hm0, hm1]

/-- For a raw gate value in `[-1, 8]`, the `quadraticGateIndex` computed by
`Muxlicer::getGateMode` lies in `[0, 4]`. -/
theorem quadraticGateIndex_bounds (g : ℚ) (h1 : -1 ≤ g) (h2 : g ≤ 8) :
    0 ≤ Muxlicer.quadraticGateIndex g ∧ Muxlicer.quadraticGateIndex g ≤ 4 := by
  have hr : rescale g (-1) 8 0 (499/100) = (g + 1) * (499/900) := by
    unfold rescale; ring
  unfold Muxlicer.quadraticGateIndex
  rw [hr]
  constructor
  · apply Int.le_floor.mpr
    push_cast
    nlinarith
  · have h5 : (g + 1) * (499/900) < ((5 : ℤ) : ℚ) := by push_cast; nlinarith
    have := Int.floor_lt.mpr h5
    omega

/-- The raw `gate` value of `Muxlicer::getGateMode` lies in `[-1, 8]` for
every CV voltage whenever the knob value is in its configured `[-1, 8]`
range. -/
theorem gateModeValue_bounds (connected : Bool) (v knob : ℚ) (h1 : -1 ≤ knob) (h2 : knob ≤ 8) :
    -1 ≤ Muxlicer.gateModeValue connected v knob ∧ Muxlicer.gateModeValue connected v knob ≤ 8 := by
  cases connected with
  | false => simpa [Muxlicer.gateModeValue] using ⟨h1, h2⟩
  | true =>
    simp only [Muxlicer.gateModeValue, if_true]
    have hcv0 : 0 ≤ clampQ v 0 5 := le_max_right _ _
    have hcv5 : clampQ v 0 5 ≤ 5 := max_le (min_le_right _ _) (by norm_num)
    have hx0 : 0 ≤ clampQ v 0 5 / 5 := div_nonneg hcv0 (by norm_num)
    have hx1 : clampQ v 0 5 / 5 ≤ 1 := by
      rw [div_le_one (by norm_num : (0:ℚ) < 5)]
      exact hcv5
    have hk : rescale knob (-1) 8 0 1 = (knob + 1) / 9 := by unfold rescale; ring
    have hk0 : 0 ≤ (knob + 1) / 9 := div_nonneg (by linarith) (by norm_num)
    have hk1 : (knob + 1) / 9 ≤ 1 := by
      rw [div_le_one (by norm_num : (0:ℚ) < 9)]
      linarith
    have hr : rescale (clampQ v 0 5 / 5 * ((knob + 1) / 9)) 0 1 (-1) 8
        = -1 + 9 * (clampQ v 0 5 / 5 * ((knob + 1) / 9)) := by
      unfold rescale; ring
    rw [hk, hr]
    have hp0 : 0 ≤ clampQ v 0 5 / 5 * ((knob + 1) / 9) := mul_nonneg hx0 hk0
    have hp1 : clampQ v 0 5 / 5 * ((knob + 1) / 9) ≤ 1 := mul_le_one₀ hx1 hk0 hk1
    constructor <;> nlinarith

/-- Claim C9: for every gate-mode knob value in `[-1, 8]` and every gate-mode
CV voltage, `Muxlicer::getGateMode` returns an integer in `[-1, 8]`; when
`quadraticGatesOnly` is set it returns an element of
`possibleQuadraticGates = {-1, 1, 2, 4, 8}`, and the index computed into that
array always lies in `[0, 4]`, so the array read is never out of bounds. -/
theorem muxlicer_getGateMode_range (connected : Bool) (v knob : ℚ) (quad : Bool)
    (h1 : -1 ≤ knob) (h2 : knob ≤ 8) :
    (-1 ≤ Muxlicer.getGateMode connected v knob quad
      ∧ Muxlicer.getGateMode connected v knob quad ≤ 8) ∧
    (quad = true → Muxlicer.getGateMode connected v knob quad ∈ possibleQuadraticGates) ∧
    (0 ≤ Muxlicer.quadraticGateIndex (Muxlicer.gateModeValue connected v knob)
      ∧ Muxlicer.quadraticGateIndex (Muxlicer.gateModeValue connected v knob) ≤ 4) := by
  obtain ⟨hg1, hg2⟩ := gateModeValue_bounds connected v knob h1 h2
  obtain ⟨hi0, hi4⟩ := quadraticGateIndex_bounds _ hg1 hg2
  have hmem : quad = true → Muxlicer.getGateMode connected v knob quad ∈ possibleQuadraticGates := by
    intro hq
    subst hq
    simp only [Muxlicer.getGateMode, if_true]
    set n := Muxlicer.quadraticGateIndex (Muxlicer.gateModeValue connected v knob) with hn
    interval_cases n <;> decide
  refine ⟨?_, hmem, hi0, hi4⟩
  cases quad with
  | true =>
    have hmem' := hmem rfl
    simp only [possibleQuadraticGates, List.mem_cons, List.not_mem_nil, or_false] at hmem'
    rcases hmem' with h | h | h | h | h <;> rw [h] <;> norm_num
  | false =>
    simp only [Muxlicer.getGateMode, Bool.false_eq_true, if_false]
    unfold clampI
    refine ⟨le_max_right _ _, max_le (min_le_right _ _) (by norm_num)⟩

/-- Witness for `muxlicer_getGateMode_range` at a connected CV of 3 V, knob
value 2, quadratic-only mode. -/
theorem muxlicer_getGateMode_range_witness :
    (-1 ≤ Muxlicer.getGateMode true 3 2 true ∧ Muxlicer.getGateMode true 3 2 true ≤ 8) ∧
    (true = true → Muxlicer.getGateMode true 3 2 true ∈ possibleQuadraticGates) ∧
    (0 ≤ Muxlicer.quadraticGateIndex (Muxlicer.gateModeValue true 3 2)
      ∧ Muxlicer.quadraticGateIndex (Muxlicer.gateModeValue true 3 2) ≤ 4) :=
  muxlicer_getGateMode_range true 3 2 true (by norm_num) (by norm_num)

/-- With a positive ratio `N ≥ 1`, the division factor is 1: the divided
cycle equals one measured input period. -/
theorem dividedSeconds_pos_ratio (L : ℚ) (N : ℕ) (hN : 1 ≤ N) :
    MultDivClock.dividedSeconds (N : ℤ) L = L := by
  have h1 : (1:ℤ) ≤ (N:ℤ) := by exact_mod_cast hN
  have hmax : max (-(N:ℤ)) 1 = 1 := max_eq_right (by omega)
  unfold MultDivClock.dividedSeconds
  rw [hmax]
  push_cast
  ring

/-- With a positive ratio `N ≥ 1`, the multiplied sub-period is one `N`-th of
the measured input period. -/
theorem multipliedSeconds_pos_ratio (L : ℚ) (N : ℕ) (hN : 1 ≤ N) :
    MultDivClock.multipliedSeconds (N : ℤ) L = L / N := by
  have h1 : (1:ℤ) ≤ (N:ℤ) := by exact_mod_cast hN
  have hmax : max (N:ℤ) 1 = (N:ℤ) := max_eq_left (by omega)
  unfold MultDivClock.multipliedSeconds
  rw [dividedSeconds_pos_ratio L N hN, hmax]
  norm_cast

/-- With a negative ratio `-N` (`N ≥ 1`), the divided cycle spans `N`
measured input periods. -/
theorem dividedSeconds_neg_ratio (L : ℚ) (N : ℕ) (hN : 1 ≤ N) :
    MultDivClock.dividedSeconds (-(N : ℤ)) L = (N : ℚ) * L := by
  have h1 : (1:ℤ) ≤ (N:ℤ) := by exact_mod_cast hN
  have hmax : max (-(-(N:ℤ))) 1 = (N:ℤ) := by
    rw [neg_neg]
    exact max_eq_left (by omega)
  unfold MultDivClock.dividedSeconds
  rw [hmax]
  push_cast
  ring

/-- Inside sub-period `k` of a multiplied (ratio `+N`) clock whose sub-period
is at least 2 ms, the output gate of `MultDivClock::process` is high exactly
on the first half of the sub-period. -/
theorem outLevel_first_half (L : ℚ) (hL : 0 < L) (N : ℕ) (hN : 1 ≤ N)
    (hms : 2/1000 ≤ L / N) (k : ℕ) (hk : k < N) (p : ℚ)
    (hp1 : (k : ℚ) * (L / N) ≤ p) (hp2 : p < ((k : ℚ) + 1) * (L / N)) :
    (MultDivClock.outLevel (N : ℤ) L p = 1 ↔ p ≤ (k : ℚ) * (L / N) + (L / N) / 2) := by
  have hN0 : (0:ℚ) < (N:ℚ) := by
    have : (1:ℚ) ≤ (N:ℚ) := by exact_mod_cast hN
    linarith
  have hsub : (0:ℚ) < L / N := div_pos hL hN0
  have hD := dividedSeconds_pos_ratio L N hN
  have hM := multipliedSeconds_pos_ratio L N hN
  have hkN : ((k:ℚ) + 1) ≤ (N:ℚ) := by exact_mod_cast Nat.succ_le_of_lt hk
  have hpL : p < L := by
    have h2 : ((k:ℚ) + 1) * (L / N) ≤ (N:ℚ) * (L / N) :=
      mul_le_mul_of_nonneg_right hkN hsub.le
    have h3 : (N:ℚ) * (L / N) = L := by field_simp
    linarith
  have hk0 : (0:ℚ) ≤ (k:ℚ) * (L / N) := mul_nonneg (Nat.cast_nonneg k) hsub.le
  have hp0 : 0 ≤ p := le_trans hk0 hp1
  have hfloor : ⌊p / (L / N)⌋ = (k : ℤ) := by
    rw [Int.floor_eq_iff]
    constructor
    · rw [le_div_iff₀ hsub]
      push_cast
      linarith
    · rw [div_lt_iff₀ hsub]
      push_cast
      linarith
  have hct : ctrunc (p / (L / N)) = (k : ℤ) := by
    unfold ctrunc
    rw [if_pos (div_nonneg hp0 hsub.le)]
    exact hfloor
  have hgate : MultDivClock.gateSeconds (N : ℤ) L = (L / N) / 2 := by
    unfold MultDivClock.gateSeconds
    rw [hM]
    have hle : (1:ℚ)/1000 ≤ (L / N) * (1/2) := by linarith
    rw [max_eq_right hle]
    ring
  have hkey : (p / (L / N) - ((k : ℤ) : ℚ)) * (L / N) = p - (k:ℚ) * (L / N) := by
    push_cast
    field_simp
    ring
  simp only [MultDivClock.outLevel]
  rw [hD, hM, hct, hgate, hkey, if_pos hpL]
  split_ifs with hc
  · exact iff_of_true rfl (by linarith)
  · exact iff_of_false (by norm_num) (fun hR => hc (by linarith))

/-- With a negative ratio `-N`, each input clock edge advances the divider
counter by one modulo `N`, and the divided cycle restarts (progress reset to
0) exactly on every `N`-th edge. -/
theorem multDivClock_divider_step (N : ℕ) (hN : 1 ≤ N) (c : MultDivClock) (e : ℕ) (dt : ℚ)
    (hmd : c.multDiv = -(N : ℤ)) (hdc : c.dividerCount = (e : ℤ) % (N : ℤ)) :
    (MultDivClock.process c dt true).1.dividerCount = ((e : ℤ) + 1) % (N : ℤ) ∧
    (MultDivClock.process c dt true).1.dividedProgressSeconds =
      (if (e : ℤ) % (N : ℤ) = 0 then 0 else c.dividedProgressSeconds + dt) := by
  have hNZ : (1:ℤ) ≤ (N:ℤ) := by exact_mod_cast hN
  have hr0 : 0 ≤ (e:ℤ) % (N:ℤ) := Int.emod_nonneg _ (by omega)
  have hrN : (e:ℤ) % (N:ℤ) < (N:ℤ) := Int.emod_lt_of_pos _ (by omega)
  have hmaxN : max (-c.multDiv) 1 = (N:ℤ) := by
    rw [hmd, neg_neg]
    exact max_eq_left (by omega)
  have hmod : ((e:ℤ) + 1) % (N:ℤ) = ((e:ℤ) % (N:ℤ) + 1) % (N:ℤ) := by
    conv_lhs => rw [show (e:ℤ) + 1 = ((e:ℤ) % (N:ℤ) + 1) + (N:ℤ) * ((e:ℤ) / (N:ℤ)) by
      have h := Int.ediv_add_emod (e:ℤ) (N:ℤ)
      linarith]
    exact Int.add_mul_emod_self_left ((e:ℤ) % (N:ℤ) + 1) (N:ℤ) ((e:ℤ) / (N:ℤ))
  simp only [MultDivClock.process, hmaxN, true_and, if_true, le_refl, ite_true]
  constructor
  · by_cases hcase : (N:ℤ) ≤ (e:ℤ) % (N:ℤ) + 1
    · have heq : (e:ℤ) % (N:ℤ) + 1 = (N:ℤ) := by omega
      rw [hdc, if_pos hcase, hmod, heq, Int.emod_self]
    · have hlt : (e:ℤ) % (N:ℤ) + 1 < (N:ℤ) := by omega
      have hge : (0:ℤ) ≤ (e:ℤ) % (N:ℤ) + 1 := by omega
      rw [hdc, if_neg hcase, hmod, Int.emod_eq_of_lt hge hlt]
  · by_cases hz : (e:ℤ) % (N:ℤ) = 0
    · have hlt1 : (e:ℤ) % (N:ℤ) < 1 := by omega
      rw [hdc, if_pos hlt1, if_pos hz]
    · have hlt1 : ¬ ((e:ℤ) % (N:ℤ) < 1) := by omega
      rw [hdc, if_neg hlt1, if_neg hz]

/-- Counterexample to claim C5 as stated: with a measured input period of
1 ms and ratio `+1`, the single sub-period spans `[0, 1 ms)` whose first half
ends at 1/2000 s, yet at progress 3/4000 s — strictly inside the second
half — the output gate of `MultDivClock::process` is still high (the code
enforces a 1 ms minimum gate length), so the gate is not high only for the
first half of the (sub-)period. -/
theorem multDivClock_first_half_counterexample :
    MultDivClock.outLevel 1 (1/1000) (3/4000) = 1 ∧
    MultDivClock.dividedSeconds 1 (1/1000) = 1/1000 ∧
    MultDivClock.multipliedSeconds 1 (1/1000) = 1/1000 ∧
    ((1:ℚ)/1000) / 2 < 3/4000 ∧ (3/4000 : ℚ) < 1/1000 := by
  refine ⟨?_, ?_, ?_, by norm_num, by norm_num⟩ <;>
    norm_num [MultDivClock.outLevel, MultDivClock.dividedSeconds,
      MultDivClock.multipliedSeconds, MultDivClock.gateSeconds, ctrunc]

/-- Amended claim C5: once the input period `L` has been measured, the ratio
`+N` makes the divided cycle one input period split into exactly `N` equal
sub-periods of length `L/N`, and — provided the sub-period is at least 2 ms,
so that the 1 ms minimum gate length is not in force — the output gate is
high exactly on the first half of each of the `N` sub-periods (hence exactly
`N` gate pulses per input period); the ratio `-N` makes the divided cycle
span `N` input periods: each edge advances the divider counter by one modulo
`N` and the divided cycle restarts exactly on every `N`-th edge. -/
theorem multDivClock_scaling (L : ℚ) (hL : 0 < L) (N : ℕ) (hN : 1 ≤ N) :
    MultDivClock.dividedSeconds (N : ℤ) L = L ∧
    MultDivClock.multipliedSeconds (N : ℤ) L = L / N ∧
    (2/1000 ≤ L / N →
      ∀ k : ℕ, k < N → ∀ p : ℚ, (k : ℚ) * (L / N) ≤ p → p < ((k : ℚ) + 1) * (L / N) →
        (MultDivClock.outLevel (N : ℤ) L p = 1 ↔ p ≤ (k : ℚ) * (L / N) + (L / N) / 2)) ∧
    MultDivClock.dividedSeconds (-(N : ℤ)) L = (N : ℚ) * L ∧
    (∀ (c : MultDivClock) (e : ℕ) (dt : ℚ), c.multDiv = -(N : ℤ) →
      c.dividerCount = (e : ℤ) % (N : ℤ) →
      (MultDivClock.process c dt true).1.dividerCount = ((e : ℤ) + 1) % (N : ℤ) ∧
      (MultDivClock.process c dt true).1.dividedProgressSeconds =
        (if (e : ℤ) % (N : ℤ) = 0 then 0 else c.dividedProgressSeconds + dt)) :=
  ⟨dividedSeconds_pos_ratio L N hN,
   multipliedSeconds_pos_ratio L N hN,
   fun hms k hk p hp1 hp2 => outLevel_first_half L hL N hN hms k hk p hp1 hp2,
   dividedSeconds_neg_ratio L N hN,
   fun c e dt h1 h2 => multDivClock_divider_step N hN c e dt h1 h2⟩

/-- Witness for `multDivClock_scaling` with `L = 1`, `N = 2`: the divided
cycle equals the input period and the gate is high at `p = 1/8` inside the
first half of sub-period 0; with ratio `-2`, an edge at counter 0 restarts
the divided cycle and advances the counter to `1 % 2`. -/
theorem multDivClock_scaling_witness :
    MultDivClock.dividedSeconds ((2:ℕ) : ℤ) 1 = 1 ∧
    (MultDivClock.outLevel ((2:ℕ) : ℤ) 1 (1/8) = 1 ↔
      (1/8 : ℚ) ≤ ((0:ℕ) : ℚ) * ((1:ℚ) / ((2:ℕ) : ℚ)) + ((1:ℚ) / ((2:ℕ) : ℚ)) / 2) ∧
    (MultDivClock.process ⟨-((2:ℕ) : ℤ), 0, 1, 0, 0⟩ (1/100) true).1.dividerCount
      = (((0:ℕ) : ℤ) + 1) % ((2:ℕ) : ℤ) :=
  ⟨(multDivClock_scaling 1 (by norm_num) 2 (by norm_num)).1,
   (multDivClock_scaling 1 (by norm_num) 2 (by norm_num)).2.2.1 (by norm_num) 0 (by norm_num)
     (1/8) (by norm_num) (by norm_num),
   ((multDivClock_scaling 1 (by norm_num) 2 (by norm_num)).2.2.2.2 ⟨-((2:ℕ) : ℤ), 0, 1, 0, 0⟩ 0
     (1/100) rfl (by norm_num)).1⟩

/-- The `numEffectiveSteps` scan never exceeds 8 when started within an
8-entry window. -/
theorem numEffectiveStepsAux_le_eight (steps : List StepState) (i : ℕ)
    (h8 : i + steps.length ≤ 8) : numEffectiveStepsAux steps i ≤ 8 := by
  induction steps generalizing i with
  | nil => simp [numEffectiveStepsAux]
  | cons s rest ih =>
    simp only [numEffectiveStepsAux]
    split_ifs
    · simp only [List.length_cons] at h8
      omega
    · apply ih
      simp only [List.length_cons] at h8
      omega

/-- `numEffectiveSteps` computed from the 8 step switches is at most 8. -/
theorem computeNumEffectiveSteps_le_eight (steps : List StepState) (h : steps.length ≤ 8) :
    computeNumEffectiveSteps steps ≤ 8 :=
  numEffectiveStepsAux_le_eight steps 0 (by omega)

/-- The advanced step index is always strictly below both 8 and
`max 1 numEffectiveSteps` when the effective count is at most 8. -/
theorem advanceStepIndex_lt (c nE : ℕ) (h : nE ≤ 8) :
    advanceStepIndex c nE < 8 ∧ advanceStepIndex c nE < max 1 nE := by
  have hpos : 0 < max 1 nE := lt_of_lt_of_le Nat.zero_lt_one (le_max_left 1 nE)
  have hmod : (c + 1) % max 1 nE < max 1 nE := Nat.mod_lt _ hpos
  have hle : max 1 nE ≤ 8 := max_le (by omega) h
  exact ⟨lt_of_lt_of_le hmod hle, hmod⟩

/-- One call to `SamplingModulator::process` either leaves `currentStep`
unchanged or replaces it with the advance `(currentStep + 1) % max 1 nE`
computed from the freshly scanned effective count. -/
theorem bool_ite_cases {α : Sort u} (b : Bool) (x y : α) :
    (if b then x else y) = y ∨ (if b then x else y) = x := by
  cases b <;> simp

theorem sampModProcess_currentStep_cases (s : SampModState) (inp : SampModInputs) :
    (SampModState.process s inp).currentStep = s.currentStep ∨
    (SampModState.process s inp).currentStep
      = advanceStepIndex s.currentStep ((SampModState.process s inp).numEffectiveSteps) :=
  bool_ite_cases _ _ _

/-- `SamplingModulator::process` always stores the effective count scanned
from this call's step switches. -/
theorem sampModProcess_numEffectiveSteps (s : SampModState) (inp : SampModInputs) :
    (SampModState.process s inp).numEffectiveSteps
      = computeNumEffectiveSteps (List.ofFn inp.stepParams) := rfl

/-- Amended claim C2: across every sequence of `SamplingModulator::process`
calls, `currentStep` stays in `[0, 8)`, so each `stepStates[currentStep]`
read (the half-phase trigger decision, the advance-step trigger decision and
the trigger output computation) is within the 8-entry array; and whenever a
call advances the step, the new index is strictly below
`max 1 numEffectiveSteps` for the freshly scanned effective count.  The
original claim's stronger invariant `currentStep < numEffectiveSteps`
whenever `numEffectiveSteps > 0` does not hold at the half-phase and
trigger-output reads after the switches are reconfigured (see the
counterexample); it is restored only at the next step advance. -/
theorem sampMod_currentStep_inbounds (s : SampModState) (inp : SampModInputs)
    (h : s.currentStep < 8) :
    (SampModState.process s inp).currentStep < 8 ∧
    ((SampModState.process s inp).currentStep = s.currentStep ∨
     (SampModState.process s inp).currentStep
       < max 1 ((SampModState.process s inp).numEffectiveSteps)) := by
  have hnE : (SampModState.process s inp).numEffectiveSteps ≤ 8 := by
    rw [sampModProcess_numEffectiveSteps]
    exact computeNumEffectiveSteps_le_eight _ (by simp)
  rcases sampModProcess_currentStep_cases s inp with hc | hc
  · rw [hc]
    exact ⟨h, Or.inl rfl⟩
  · have hlt := advanceStepIndex_lt s.currentStep _ hnE
    rw [hc]
    exact ⟨hlt.1, Or.inr hlt.2⟩

/-- A `SamplingModulator::process` input in external-clock mode with the
given sync voltage and step switches, all other inputs quiet, frequency 1
(zero knobs and CV) and a 1 µs sample time. -/
def sampModDemoInput (sync : ℚ) (stepParams : Fin 8 → StepState) : SampModInputs :=
  { intExtParam := 0, stepParams := stepParams, syncVoltage := sync,
    holdVoltage := 0, inVoltage := 0, sampleTime := 1/1000000, frequency := 1 }

/-- Step switches `[ON, ON, RESET, ON, ON, ON, ON, ON]`. -/
def sampModDemoResetSteps : Fin 8 → StepState :=
  fun i => if (i : ℕ) = 2 then STATE_RESET else STATE_ON

/-- A concrete call trace: arm the external clock low, send five clock
pulses (advancing `currentStep` to 5 with all eight switches ON), then one
quiet call with the switches reconfigured to `[ON, ON, RESET, ON*5]`. -/
def sampModDemoTrace : List SampModInputs :=
  [sampModDemoInput 0 (fun _ => STATE_ON), sampModDemoInput 10 (fun _ => STATE_ON),
   sampModDemoInput 0 (fun _ => STATE_ON), sampModDemoInput 10 (fun _ => STATE_ON),
   sampModDemoInput 0 (fun _ => STATE_ON), sampModDemoInput 10 (fun _ => STATE_ON),
   sampModDemoInput 0 (fun _ => STATE_ON), sampModDemoInput 10 (fun _ => STATE_ON),
   sampModDemoInput 0 (fun _ => STATE_ON), sampModDemoInput 10 (fun _ => STATE_ON),
   sampModDemoInput 0 sampModDemoResetSteps]

/-- Counterexample to claim C2 as stated: after the trace above, the state
reached by `SamplingModulator::process` has `numEffectiveSteps = 2 > 0` but
`currentStep = 5`, and the trigger-output computation of that very call
(line 190, which reads `stepStates[currentStep]` unconditionally) used this
state: the index is not valid for the current effective length. -/
theorem sampMod_invalid_index_counterexample :
    (SampModState.run sampModInit sampModDemoTrace).numEffectiveSteps = 2 ∧
    (SampModState.run sampModInit sampModDemoTrace).currentStep = 5 ∧
    ¬ ((SampModState.run sampModInit sampModDemoTrace).currentStep
        < (SampModState.run sampModInit sampModDemoTrace).numEffectiveSteps) := by
  have hrun : SampModState.run sampModInit sampModDemoTrace
      = { numEffectiveSteps := 2, currentStep := 5, stepStates := sampModDemoResetSteps,
          stepPhase := 11/1000000, halfPhase := false, heldValue := 0,
          holdDetectorState := false, clockState := false } := by
    norm_num [SampModState.run, sampModDemoTrace, sampModDemoInput, sampModInit,
      SampModState.process, schmittProcess, rescale, clampQ, computeNumEffectiveSteps,
      numEffectiveStepsAux, advanceStepIndex, List.ofFn_succ, List.ofFn_zero,
      sampModDemoResetSteps, List.foldl_cons, List.foldl_nil, Nat.max_def,
      eq_false (show ¬ (STATE_ON = STATE_RESET) by decide),
      eq_false (show ¬ (STATE_ON = STATE_OFF) by decide)]
  rw [hrun]
  norm_num

/-- Witness for `sampMod_currentStep_inbounds` at the initial state and a
quiet input call. -/
theorem sampMod_currentStep_inbounds_witness :
    (SampModState.process sampModInit (sampModDemoInput 0 (fun _ => STATE_ON))).currentStep < 8 ∧
    ((SampModState.process sampModInit (sampModDemoInput 0 (fun _ => STATE_ON))).currentStep
        = sampModInit.currentStep ∨
     (SampModState.process sampModInit (sampModDemoInput 0 (fun _ => STATE_ON))).currentStep
        < max 1 ((SampModState.process sampModInit
            (sampModDemoInput 0 (fun _ => STATE_ON))).numEffectiveSteps)) :=
  sampMod_currentStep_inbounds sampModInit (sampModDemoInput 0 (fun _ => STATE_ON)) (by norm_num [sampModInit])
